import Mathlib

set_option autoImplicit false

/-!
Verification of the stackshot stack-reconciliation engine.

The definitions below are a shallow embedding of the Go sources:
`event_loader.go` (the event stream tracker `stackEvents`), the stack
engine (`Stack`, `load`, `Sync`, `waitUntilDone`, `createStackInput`,
`updateStackInput`, `stackDoneStatuses`, `NoStackUpdatesToPerform`,
`stackDoesNotExist`) and the configuration record `StackConfig`.
-/

namespace Stackshot

/-- A CloudFormation stack event as read by the engine: the remote-assigned
`EventId` and the event `Timestamp` (modelled as a natural number; only its
ordering matters).  The remaining fields of `cloudformation.StackEvent`
(resource ids, status, reason) are never inspected by the event loader and are
omitted.  In the SDK `EventId` is a string pointer that is always set by the
service; it is modelled as a plain string. -/
structure StackEvent where
  eventId : String
  timestamp : Nat
  deriving DecidableEq

/-- A CloudFormation stack snapshot (`cloudformation.Stack`) restricted to the
fields the engine reads.  All SDK fields are pointers, hence `Option`. -/
structure CfnStack where
  stackId : Option String
  stackName : Option String
  stackStatus : Option String
  deriving DecidableEq

/-- `aws.StringValue`: dereference a string pointer, `nil` becoming `""`. -/
def stringValue : Option String → String
  | none => ""
  | some s => s

/-- A classified AWS error (`awserr.Error`): an error code and a message. -/
structure AwsError where
  code : String
  message : String
  deriving DecidableEq

/-- An error value as the Go code distinguishes them: either a classified
`awserr.Error` or a plain error carrying its rendered message. -/
inductive GoError where
  | aws (e : AwsError)
  | plain (msg : String)
  deriving DecidableEq

/-- `errors.Wrap(err, msg)` renders as `msg ++ ": " ++ original message`. -/
def wrapMsg (msg orig : String) : String :=
  msg ++ ": " ++ orig

/-- The marker test inside the `DescribeStackEventsPages` callback of
`latestEvents`: the Go code compares `aws.StringValue(e.EventId)` against
`aws.StringValue(s.lastLoadedEventId)` only when the marker pointer is
non-nil. -/
def markerMatches (marker : Option String) (e : StackEvent) : Bool :=
  match marker with
  | none => false
  | some m => e.eventId == m

/-- The per-page body of the `DescribeStackEventsPages` callback in
`latestEvents`: append events to `newEvents` until one matches the stored
marker, in which case the callback returns `false` and pagination stops.
Returns the collected prefix of the page and whether the marker was found. -/
def collectPage (marker : Option String) : List StackEvent → List StackEvent × Bool
  | [] => ([], false)
  | e :: rest =>
    if markerMatches marker e then
      ([], true)
    else
      let r := collectPage marker rest
      (e :: r.1, r.2)

/-- The whole pagination of `latestEvents` over the successive pages the SDK
feeds to the callback: pages are scanned in order until the marker is found or
pages are exhausted.  (The callback's `return !lastPage` stops pagination on
the last page, which coincides with the page list running out.) -/
def collectNewEvents (marker : Option String) : List (List StackEvent) → List StackEvent
  | [] => []
  | page :: pages =>
    let r := collectPage marker page
    if r.2 then r.1 else r.1 ++ collectNewEvents marker pages

/-- The delivery loop of `latestEvents`: events are passed to
`consumer.Consume` one at a time; a consumer error returns immediately.  The
consumer is modelled by the predicate `consumerOk` stating whether `Consume`
succeeds on an event.  Returns the list of events passed to the consumer and
whether all of them succeeded. -/
def deliver (consumerOk : StackEvent → Bool) : List StackEvent → List StackEvent × Bool
  | [] => ([], true)
  | e :: rest =>
    if consumerOk e then
      let r := deliver consumerOk rest
      (e :: r.1, r.2)
    else
      ([e], false)

/-- The errors `latestEvents` can return: the pagination error forwarded
verbatim, or the consumer's error. -/
inductive PullError where
  | api (msg : String)
  | consumer
  deriving DecidableEq

/-- Observable outcome of one `stackEvents.latestEvents` call: the events
passed to the consumer, the value of `lastLoadedEventId` after the call, and
the function's return value. -/
structure PullResult where
  delivered : List StackEvent
  marker : Option String
  result : Except PullError Unit

/-- `stackEvents.latestEvents` (event_loader.go).  The remote call
`DescribeStackEventsPages` is modelled by its outcome: either an error (the
Go code then returns it before delivering anything or touching the marker) or
the list of pages fed to the callback, each page listing events in the
service's native most-recent-first order.  On success the collected events are
delivered in reverse (chronological) order and, if at least one event was
collected, `lastLoadedEventId` is set to the id of `newEvents[0]`, the most
recent collected event. -/
def latestEvents (marker : Option String) (pages : Except String (List (List StackEvent)))
    (consumerOk : StackEvent → Bool) : PullResult :=
  match pages with
  | Except.error e => ⟨[], marker, Except.error (PullError.api e)⟩
  | Except.ok ps =>
    let newEvents := collectNewEvents marker ps
    let d := deliver consumerOk newEvents.reverse
    if d.2 then
      ⟨d.1,
       (match newEvents with
        | [] => marker
        | e :: _ => some e.eventId),
       Except.ok ()⟩
    else
      ⟨d.1, marker, Except.error PullError.consumer⟩

/-- `stackEvents.storeLastEvent` (event_loader.go).  The `DescribeStackEvents`
call is modelled by its outcome.  On an error the wrapped error is returned
and `lastLoadedEventId` (argument `last`) is left unchanged.  On success the
Go code reads `output.StackEvents[0].EventId` without checking for emptiness:
an empty `StackEvents` slice is an out-of-bounds index (a runtime panic),
modelled as `none`.  Otherwise the new marker and the return value are
produced. -/
def storeLastEvent (last : Option String) (resp : Except String (List StackEvent)) :
    Option (Option String × Except String Unit) :=
  match resp with
  | Except.error e => some (last, Except.error (wrapMsg "failed to load stack events" e))
  | Except.ok [] => none
  | Except.ok (e :: _) => some (some e.eventId, Except.ok ())

/-- `StackConfig` (config.go).  Go maps (`Parameters`, `Tags`) are modelled as
association lists; a Go map's iteration order is unspecified and no verified
property depends on the order.  `TemplateBody` is kept as the already-resolved
string. -/
structure StackConfig where
  name : String
  templateURL : String
  templatePath : String
  templateBody : String
  parameters : List (String × String)
  tags : List (String × String)
  capabilities : List String
  disableRollback : Bool
  enableTerminationProtection : Bool
  onFailure : String
  deriving DecidableEq

/-- `StackConfig.verifyRequiredFields` (config.go): the list of missing
required fields, then the mutual-exclusion check between `on_failure` and
`disable_rollback`. -/
def verifyRequiredFields (c : StackConfig) : Except String Unit :=
  let missingFields : List String :=
    (if c.name = "" then ["name"] else []) ++
    (if c.templateURL = "" ∧ c.templateBody = "" ∧ c.templatePath = "" then
      ["template_url/template_body/template_path"] else [])
  if missingFields.length ≠ 0 then
    Except.error ("Missing fields from document: " ++ String.intercalate ", " missingFields)
  else if c.onFailure ≠ "" ∧ c.disableRollback then
    Except.error "disable_rollback and on_failure cannot both be set"
  else
    Except.ok ()

/-- The field surface of a CloudFormation mutation request, covering every
field this engine can set on `cloudformation.CreateStackInput` or
`cloudformation.UpdateStackInput`.  All SDK fields are pointers, so a field is
`none` exactly when the request omits it.  `cloudformation.UpdateStackInput`
in aws-sdk-go v1.34.13 declares no `OnFailure`, `DisableRollback` or
`EnableTerminationProtection` member at all, so an update request always omits
those three fields. -/
structure MutationInput where
  stackName : Option String
  templateURL : Option String
  enableTerminationProtection : Option Bool
  onFailure : Option String
  disableRollback : Option Bool
  parameters : Option (List (String × String))
  tags : Option (List (String × String))
  capabilities : Option (List String)
  deriving DecidableEq

/-- `Stack.createStackInput`: `StackName`, `TemplateURL` and
`EnableTerminationProtection` are always set; `OnFailure` is set when the
configured policy is non-empty, otherwise `DisableRollback` is set when the
configured flag is true; parameters, tags and capabilities are set only when
the corresponding collection is non-empty. -/
def createStackInput (c : StackConfig) : MutationInput :=
  { stackName := some c.name
    templateURL := some c.templateURL
    enableTerminationProtection := some c.enableTerminationProtection
    onFailure := if c.onFailure ≠ "" then some c.onFailure else none
    disableRollback :=
      if c.onFailure ≠ "" then none
      else if c.disableRollback then some c.disableRollback else none
    parameters := if c.parameters.length > 0 then some c.parameters else none
    tags := if c.tags.length > 0 then some c.tags else none
    capabilities := if c.capabilities.length > 0 then some c.capabilities else none }

/-- `Stack.updateStackInput`: `StackName` and `TemplateURL` are always set;
parameters, tags and capabilities are set only when non-empty.  The three
create-only fields do not exist on the SDK's `UpdateStackInput` and are never
set. -/
def updateStackInput (c : StackConfig) : MutationInput :=
  { stackName := some c.name
    templateURL := some c.templateURL
    enableTerminationProtection := none
    onFailure := none
    disableRollback := none
    parameters := if c.parameters.length > 0 then some c.parameters else none
    tags := if c.tags.length > 0 then some c.tags else none
    capabilities := if c.capabilities.length > 0 then some c.capabilities else none }

/-- A mutation issued to the remote API: a `CreateStack` or an `UpdateStack`
request. -/
inductive StackMutation where
  | createStk (input : MutationInput)
  | updateStk (input : MutationInput)
  deriving DecidableEq

/-- `Stack.createStack`: issues `CreateStack(createStackInput())`; an error is
wrapped with the message `"failed to create stack: "`.  `res` is the remote
API's response.  The wrapped error keeps its cause in Go; only the rendered
message matters to the verified claims, so wrapping is modelled on the
message. -/
def createStack (res : Except GoError Unit) : Except GoError Unit :=
  match res with
  | Except.ok _ => Except.ok ()
  | Except.error (GoError.aws e) =>
    Except.error (GoError.plain (wrapMsg "failed to create stack: " e.message))
  | Except.error (GoError.plain m) =>
    Except.error (GoError.plain (wrapMsg "failed to create stack: " m))

/-- `Stack.updateStack`: issues `UpdateStack(updateStackInput())`.  A
classified `awserr.Error` is returned verbatim (so the caller can branch on
its code and message); any other error is wrapped with
`"failed to update stack: "`. -/
def updateStack (res : Except GoError Unit) : Except GoError Unit :=
  match res with
  | Except.ok _ => Except.ok ()
  | Except.error (GoError.aws e) => Except.error (GoError.aws e)
  | Except.error (GoError.plain m) =>
    Except.error (GoError.plain (wrapMsg "failed to update stack: " m))

/-- `Stack.Sync`: create when `cloudStack` is nil, update otherwise.  Returns
the list of mutations issued to the remote API in this call together with the
call's result; `createRes`/`updateRes` are the remote API's responses to the
respective mutation. -/
def Sync (cloudStack : Option CfnStack) (config : StackConfig)
    (createRes updateRes : Except GoError Unit) :
    List StackMutation × Except GoError Unit :=
  match cloudStack with
  | none => ([StackMutation.createStk (createStackInput config)], createStack createRes)
  | some _ => ([StackMutation.updateStk (updateStackInput config)], updateStack updateRes)

/-- `NoStackUpdatesToPerform` (config_test.go engine section): detects the
CloudFormation validation response meaning the update has no changes to
apply. -/
def NoStackUpdatesToPerform (e : AwsError) : Bool :=
  e.code == "ValidationError" && e.message == "No updates are to be performed."

/-- Whether `sub` occurs at the start of `s` (on character lists). -/
def listStartsWith : List Char → List Char → Bool
  | _, [] => true
  | [], _ :: _ => false
  | a :: as, b :: bs => a == b && listStartsWith as bs

/-- Whether `sub` occurs anywhere inside `s` (on character lists). -/
def listContainsSub : List Char → List Char → Bool
  | [], sub => sub.isEmpty
  | a :: as, sub => listStartsWith (a :: as) sub || listContainsSub as sub

/-- Go `strings.Contains s sub`. -/
def strContains (s sub : String) : Bool :=
  listContainsSub s.toList sub.toList

/-- `stackDoesNotExist` (config_test.go engine section): `DescribeStacks`
reports a missing stack as a `ValidationError` whose message contains
`fmt.Sprintf("%s does not exist", stackName)`. -/
def stackDoesNotExist (stackName : String) (e : AwsError) : Bool :=
  e.code == "ValidationError" && strContains e.message (stackName ++ " does not exist")

/-- `Stack.load`: queries `DescribeStacks` (by name while `cloudStack` is nil,
by the stored stack id afterwards; the query key is not observable here).
`resp` models the response.  On the recognized not-found validation error the
Go code returns `nil` without touching `s.cloudStack`; on any other error the
error is returned; on success the response must contain exactly one stack,
which becomes the new snapshot.  Returns the `cloudStack` field after the
call together with the returned error. -/
def load (configName : String) (cloudStack : Option CfnStack)
    (resp : Except GoError (List CfnStack)) : Option CfnStack × Except GoError Unit :=
  match resp with
  | Except.error (GoError.aws e) =>
    if stackDoesNotExist configName e then (cloudStack, Except.ok ())
    else (cloudStack, Except.error (GoError.aws e))
  | Except.error (GoError.plain m) => (cloudStack, Except.error (GoError.plain m))
  | Except.ok sts =>
    match sts with
    | [st] => (some st, Except.ok ())
    | _ =>
      (cloudStack,
       Except.error (GoError.plain
         ("Did not find correct number of stacks. Found: " ++ toString sts.length)))

/-- `stackDoneStatuses` (config_test.go engine section): the fixed table of
terminal statuses; the value records whether the status counts as a
successful sync. -/
def stackDoneStatuses : List (String × Bool) :=
  [("CREATE_COMPLETE", true),
   ("UPDATE_COMPLETE", true),
   ("CREATE_FAILED", false),
   ("UPDATE_FAILED", false),
   ("UPDATE_ROLLBACK_COMPLETE", false),
   ("UPDATE_ROLLBACK_FAILED", false),
   ("DELETE_COMPLETE", false),
   ("DELETE_FAILED", false),
   ("ROLLBACK_FAILED", false),
   ("ROLLBACK_COMPLETE", false)]

/-- The Go two-valued map read `_, ok := stackDoneStatuses[status]` /
`stackDoneStatuses[status]`. -/
def lookupDoneStatus (status : String) : Option Bool :=
  stackDoneStatuses.lookup status

/-- How the `for` loop of `waitUntilDone` ended: an error from `load` or
`latestEvents` during some iteration, `break` on a terminal status, or the
loop condition running out. -/
inductive LoopExit where
  | err (e : GoError)
  | broke (status : String)
  | exhausted
  deriving DecidableEq

/-- The `for attempts := 0; attempts < waitAttempts; attempts++` loop of
`waitUntilDone`, as recursion over the list of remaining attempt indices.
At each attempt `i`: run `s.load()` (`reload i`, which on success yields the
status string subsequently read from `s.cloudStack.StackStatus`), then
`s.latestEvents(consumer)` (`pull i`), then break if the status is a key of
`stackDoneStatuses`.  The `waiter.wait()` between non-final iterations has no
observable effect and is not modelled.  Returns the number of iterations
started (each performing one reload) and how the loop ended. -/
def runWaitLoop (reload : Nat → Except GoError String) (pull : Nat → Except GoError Unit) :
    List Nat → Nat × LoopExit
  | [] => (0, LoopExit.exhausted)
  | i :: rest =>
    match reload i with
    | Except.error e => (1, LoopExit.err e)
    | Except.ok status =>
      match pull i with
      | Except.error e => (1, LoopExit.err e)
      | Except.ok _ =>
        if (lookupDoneStatus status).isSome then (1, LoopExit.broke status)
        else
          let r := runWaitLoop reload pull rest
          (r.1 + 1, r.2)

/-- The outcomes of `waitUntilDone`, one constructor per distinct return:
success, a forwarded load/pull error, the status-failure error
(`"stacked failed to complete. status: %s"`) and the timeout error
(`"Stack failed to complete in time. ..."`). -/
inductive WaitResult where
  | ok
  | err (e : GoError)
  | statusFailure (status : String)
  | timeout
  deriving DecidableEq

/-- `Stack.waitUntilDone`: run the bounded loop over attempts
`0 .. waitAttempts-1`; if the counter reached `waitAttempts` the timeout
error is returned, otherwise the terminal status that broke the loop is
classified through `stackDoneStatuses` into success or the status-failure
error.  Returns the number of iterations performed with the result. -/
def waitUntilDone (waitAttempts : Nat) (reload : Nat → Except GoError String)
    (pull : Nat → Except GoError Unit) : Nat × WaitResult :=
  let r := runWaitLoop reload pull (List.range waitAttempts)
  match r.2 with
  | LoopExit.err e => (r.1, WaitResult.err e)
  | LoopExit.exhausted => (r.1, WaitResult.timeout)
  | LoopExit.broke status =>
    match lookupDoneStatus status with
    | some true => (r.1, WaitResult.ok)
    | _ => (r.1, WaitResult.statusFailure status)

/-! Helper lemmas about the event loader. -/

theorem deliver_of_all_ok (cok : StackEvent → Bool) (l : List StackEvent)
    (h : ∀ e ∈ l, cok e = true) : deliver cok l = (l, true) := by
  induction l with
  | nil => rfl
  | cons e rest ih =>
    have he := h e (List.mem_cons_self e rest)
    have ih2 := ih (fun x hx => h x (List.mem_cons_of_mem _ hx))
    simp [deliver, he, ih2]

theorem latestEvents_ok_all (mk : Option String) (ps : List (List StackEvent)) :
    latestEvents mk (Except.ok ps) (fun _ => true) =
      ⟨(collectNewEvents mk ps).reverse,
       (match collectNewEvents mk ps with
        | [] => mk
        | e :: _ => some e.eventId),
       Except.ok ()⟩ := by
  simp [latestEvents, deliver_of_all_ok (fun _ => true) _ (fun _ _ => rfl)]

/-! C3 -/

/-- C3: `Sync` issues the create mutation exactly when the remote snapshot is
absent (`cloudStack` nil), the update mutation exactly when it is present,
and never issues both in one call. -/
theorem c3_sync_create_when_absent_update_when_present
    (cloudStack : Option CfnStack) (config : StackConfig)
    (createRes updateRes : Except GoError Unit) :
    (cloudStack = none →
      (Sync cloudStack config createRes updateRes).1 =
        [StackMutation.createStk (createStackInput config)]) ∧
    (∀ st, cloudStack = some st →
      (Sync cloudStack config createRes updateRes).1 =
        [StackMutation.updateStk (updateStackInput config)]) ∧
    ¬((∃ i, StackMutation.createStk i ∈ (Sync cloudStack config createRes updateRes).1) ∧
      (∃ i, StackMutation.updateStk i ∈ (Sync cloudStack config createRes updateRes).1)) := by
  cases cloudStack with
  | none =>
    refine ⟨fun _ => rfl, ?_, ?_⟩
    · intro st h
      simp at h
    · rintro ⟨-, ⟨i2, hi2⟩⟩
      simp [Sync] at hi2
  | some st0 =>
    refine ⟨?_, fun st _ => rfl, ?_⟩
    · intro h
      simp at h
    · rintro ⟨⟨i1, hi1⟩, -⟩
      simp [Sync] at hi1

/-- Witness for C3 at a concrete engine state with an absent snapshot. -/
theorem c3_sync_create_when_absent_update_when_present_witness :
    (Sync none ⟨"mystack", "https://b.s3.amazonaws.com/t.yaml", "", "", [], [], [], false,
        false, ""⟩ (Except.ok ()) (Except.ok ())).1 =
      [StackMutation.createStk (createStackInput ⟨"mystack", "https://b.s3.amazonaws.com/t.yaml",
        "", "", [], [], [], false, false, ""⟩)] :=
  (c3_sync_create_when_absent_update_when_present none _ (Except.ok ()) (Except.ok ())).1 rfl

/-! C5 -/

/-- C5: the create mutation never carries both the on-failure policy and the
rollback-disable flag; when `OnFailure` is non-empty it is set and
`DisableRollback` is omitted; otherwise `OnFailure` is omitted and
`DisableRollback` is set exactly when the configured flag is true. -/
theorem c5_createInput_onFailure_xor_disableRollback (c : StackConfig) :
    (¬((createStackInput c).onFailure.isSome ∧ (createStackInput c).disableRollback.isSome)) ∧
    (c.onFailure ≠ "" →
      (createStackInput c).onFailure = some c.onFailure ∧
      (createStackInput c).disableRollback = none) ∧
    (c.onFailure = "" →
      (createStackInput c).onFailure = none ∧
      (createStackInput c).disableRollback =
        (if c.disableRollback then some true else none)) := by
  by_cases hf : c.onFailure = "" <;> by_cases hd : c.disableRollback = true <;>
    refine ⟨?_, ?_, ?_⟩ <;> simp [createStackInput, hf, hd]

/-- Witness for C5 at a configuration carrying an on-failure policy. -/
theorem c5_createInput_onFailure_xor_disableRollback_witness :
    (createStackInput ⟨"n", "u", "", "", [], [], [], false, false, "DELETE"⟩).onFailure =
        some "DELETE" ∧
    (createStackInput ⟨"n", "u", "", "", [], [], [], false, false, "DELETE"⟩).disableRollback =
        none :=
  (c5_createInput_onFailure_xor_disableRollback _).2.1 (by decide)

/-! C6 -/

/-- C6: an error from the paged event retrieval is returned with no event
delivered and the marker unchanged; with no new event the pull is a no-op on
the marker; when all collected events are delivered the marker advances to the
id of the most recent collected (hence last delivered) event; a failed
delivery leaves the marker unchanged. -/
theorem c6_pullNew_error_aborts_without_marker_update
    (mk : Option String) (cok : StackEvent → Bool) :
    (∀ msg, latestEvents mk (Except.error msg) cok =
      ⟨[], mk, Except.error (PullError.api msg)⟩) ∧
    (∀ pages, collectNewEvents mk pages = [] →
      latestEvents mk (Except.ok pages) cok = ⟨[], mk, Except.ok ()⟩) ∧
    (∀ pages e rest, collectNewEvents mk pages = e :: rest →
      (∀ x ∈ e :: rest, cok x = true) →
      latestEvents mk (Except.ok pages) cok =
        ⟨(e :: rest).reverse, some e.eventId, Except.ok ()⟩) ∧
    (∀ pages, (deliver cok (collectNewEvents mk pages).reverse).2 = false →
      (latestEvents mk (Except.ok pages) cok).marker = mk) := by
  refine ⟨fun msg => rfl, ?_, ?_, ?_⟩
  · intro pages h
    simp [latestEvents, h, deliver]
  · intro pages e rest hc hall
    have hall2 : ∀ x ∈ rest.reverse ++ [e], cok x = true := by
      intro x hx
      rcases List.mem_append.mp hx with h1 | h1
      · exact hall x (List.mem_cons_of_mem _ (List.mem_reverse.mp h1))
      · have hx2 : x = e := by simpa using h1
        subst hx2
        exact hall x (List.mem_cons_self x rest)
    have hd := deliver_of_all_ok cok (rest.reverse ++ [e]) hall2
    simp [latestEvents, hc, hd]
  · intro pages hfail
    simp [latestEvents, hfail]

/-- Witness for C6: a pull that collects nothing leaves the marker as it was. -/
theorem c6_pullNew_error_aborts_without_marker_update_witness :
    latestEvents (some "a") (Except.ok []) (fun _ => true) =
      ⟨[], some "a", Except.ok ()⟩ :=
  (c6_pullNew_error_aborts_without_marker_update (some "a") (fun _ => true)).2.1 [] rfl

/-! C7 -/

/-- C7: the update mutation includes parameters, tags and capabilities exactly
when each collection is non-empty, and never carries the create-only fields
(on-failure policy, rollback-disable flag, termination-protection flag). -/
theorem c7_updateInput_collections_and_no_create_only_fields (c : StackConfig) :
    ((updateStackInput c).onFailure = none ∧
     (updateStackInput c).disableRollback = none ∧
     (updateStackInput c).enableTerminationProtection = none) ∧
    (c.parameters = [] → (updateStackInput c).parameters = none) ∧
    (c.parameters ≠ [] → (updateStackInput c).parameters = some c.parameters) ∧
    (c.tags = [] → (updateStackInput c).tags = none) ∧
    (c.tags ≠ [] → (updateStackInput c).tags = some c.tags) ∧
    (c.capabilities = [] → (updateStackInput c).capabilities = none) ∧
    (c.capabilities ≠ [] → (updateStackInput c).capabilities = some c.capabilities) := by
  refine ⟨⟨rfl, rfl, rfl⟩, ?_, ?_, ?_, ?_, ?_, ?_⟩
  · intro h
    simp [updateStackInput, h]
  · intro h
    cases hp : c.parameters with
    | nil => exact absurd hp h
    | cons a t => simp [updateStackInput, hp]
  · intro h
    simp [updateStackInput, h]
  · intro h
    cases hp : c.tags with
    | nil => exact absurd hp h
    | cons a t => simp [updateStackInput, hp]
  · intro h
    simp [updateStackInput, h]
  · intro h
    cases hp : c.capabilities with
    | nil => exact absurd hp h
    | cons a t => simp [updateStackInput, hp]

/-- Witness for C7 at a configuration with parameters and tags but no
capabilities. -/
theorem c7_updateInput_collections_and_no_create_only_fields_witness :
    (updateStackInput ⟨"n", "u", "", "", [("MyParam", "MyValue")],
        [("environment", "production")], [], false, false, ""⟩).parameters =
      some [("MyParam", "MyValue")] ∧
    (updateStackInput ⟨"n", "u", "", "", [("MyParam", "MyValue")],
        [("environment", "production")], [], false, false, ""⟩).capabilities = none :=
  ⟨(c7_updateInput_collections_and_no_create_only_fields _).2.2.1 (by decide),
   (c7_updateInput_collections_and_no_create_only_fields _).2.2.2.2.2.1 rfl⟩

/-! C8 -/

/-- C8 counterexample: a reload hitting the recognized not-found validation
error while a snapshot is already present returns no error yet leaves the
snapshot set, refuting "the internal state is absent (the snapshot is not
set)" for that call. -/
theorem c8_load_notFound_snapshot_not_cleared_cex :
    (load "mystack" (some ⟨some "id-1", some "mystack", some "CREATE_COMPLETE"⟩)
        (Except.error (GoError.aws
          ⟨"ValidationError", "Stack with id mystack does not exist"⟩))).2 =
      Except.ok () ∧
    (load "mystack" (some ⟨some "id-1", some "mystack", some "CREATE_COMPLETE"⟩)
        (Except.error (GoError.aws
          ⟨"ValidationError", "Stack with id mystack does not exist"⟩))).1 ≠
      none :=
  ⟨rfl, by decide⟩

/-- C8 (amended): on the recognized stack-does-not-exist validation error,
`load` returns no error and leaves the snapshot exactly as it was — in
particular it stays absent whenever it was absent, as on the initial load;
any other error from the describe call is returned as a failure. -/
theorem c8_load_notFound_ok_snapshot_unchanged
    (name : String) (cs : Option CfnStack) (e : AwsError)
    (hnf : stackDoesNotExist name e = true) :
    load name cs (Except.error (GoError.aws e)) = (cs, Except.ok ()) ∧
    (cs = none → (load name cs (Except.error (GoError.aws e))).1 = none) ∧
    (∀ e2 : AwsError, stackDoesNotExist name e2 = false →
      load name cs (Except.error (GoError.aws e2)) = (cs, Except.error (GoError.aws e2))) ∧
    (∀ m, load name cs (Except.error (GoError.plain m)) =
      (cs, Except.error (GoError.plain m))) := by
  refine ⟨?_, ?_, ?_, fun m => rfl⟩
  · simp [load, hnf]
  · intro h
    simp [load, hnf, h]
  · intro e2 h2
    simp [load, h2]

/-- Witness for C8 (amended) at the initial-load state: no snapshot yet and a
not-found response. -/
theorem c8_load_notFound_ok_snapshot_unchanged_witness :
    load "mystack" none
        (Except.error (GoError.aws ⟨"ValidationError", "mystack does not exist"⟩)) =
      (none, Except.ok ()) :=
  (c8_load_notFound_ok_snapshot_unchanged "mystack" none
    ⟨"ValidationError", "mystack does not exist"⟩ (by decide)).1

/-! C9 -/

/-- C9: `NoStackUpdatesToPerform` holds exactly when the error code is
`"ValidationError"` and the message is `"No updates are to be performed."`;
`updateStack` surfaces a classified `awserr.Error` verbatim (so the caller can
branch on this condition without string matching), while a plain error is
wrapped into a generic failure. -/
theorem c9_noUpdates_recognized_classified (e : AwsError) :
    (NoStackUpdatesToPerform e = true ↔
      (e.code = "ValidationError" ∧ e.message = "No updates are to be performed.")) ∧
    (updateStack (Except.error (GoError.aws e)) = Except.error (GoError.aws e)) ∧
    (∀ m, updateStack (Except.error (GoError.plain m)) =
      Except.error (GoError.plain (wrapMsg "failed to update stack: " m))) := by
  refine ⟨?_, rfl, fun m => rfl⟩
  simp [NoStackUpdatesToPerform]

/-- Witness for C9 at the concrete no-updates validation response. -/
theorem c9_noUpdates_recognized_classified_witness :
    NoStackUpdatesToPerform ⟨"ValidationError", "No updates are to be performed."⟩ = true ∧
    updateStack (Except.error (GoError.aws
        ⟨"ValidationError", "No updates are to be performed."⟩)) =
      Except.error (GoError.aws ⟨"ValidationError", "No updates are to be performed."⟩) :=
  ⟨(c9_noUpdates_recognized_classified
      ⟨"ValidationError", "No updates are to be performed."⟩).1.mpr ⟨rfl, rfl⟩,
   (c9_noUpdates_recognized_classified
      ⟨"ValidationError", "No updates are to be performed."⟩).2.1⟩

/-! C10 -/

/-- C10 (code-bug evidence): on a successful `DescribeStackEvents` response
with an empty event list, `storeLastEvent` reads `output.StackEvents[0]` out
of bounds — a runtime panic, modelled as `none` — instead of completing; with
a non-empty list it records the most recent event's identifier; on an error
response it returns the wrapped error and leaves `lastLoadedEventId`
unchanged. -/
theorem c10_storeLastEvent_empty_response_panics :
    storeLastEvent (some "prev") (Except.ok []) = none ∧
    storeLastEvent none (Except.ok [⟨"event-id", 0⟩]) =
      some (some "event-id", Except.ok ()) ∧
    (∀ last m, storeLastEvent last (Except.error m) =
      some (last, Except.error (wrapMsg "failed to load stack events" m))) :=
  ⟨rfl, rfl, fun _ _ => rfl⟩

/-! Helper lemmas about the poll loop. -/

theorem runWaitLoop_fst_le_length (reload : Nat → Except GoError String)
    (pull : Nat → Except GoError Unit) (l : List Nat) :
    (runWaitLoop reload pull l).1 ≤ l.length := by
  induction l with
  | nil => simp [runWaitLoop]
  | cons i rest ih =>
    simp only [runWaitLoop, List.length_cons]
    cases hr : reload i with
    | error e => simp
    | ok status =>
      cases hp : pull i with
      | error e => simp
      | ok u =>
        by_cases h : (lookupDoneStatus status).isSome
        · simp [h]
        · simp only [h, if_false, Bool.false_eq_true]
          omega

theorem waitUntilDone_fst (n : Nat) (reload : Nat → Except GoError String)
    (pull : Nat → Except GoError Unit) :
    (waitUntilDone n reload pull).1 = (runWaitLoop reload pull (List.range n)).1 := by
  simp only [waitUntilDone]
  cases (runWaitLoop reload pull (List.range n)).2 with
  | err e => rfl
  | broke status =>
    cases hs : lookupDoneStatus status with
    | none => simp [hs]
    | some b => cases b <;> simp [hs]
  | exhausted => rfl

theorem runWaitLoop_no_terminal (reload : Nat → Except GoError String)
    (pull : Nat → Except GoError Unit) (l : List Nat) :
    (∀ i ∈ l, ∃ st, reload i = Except.ok st ∧ lookupDoneStatus st = none) →
    (∀ i ∈ l, pull i = Except.ok ()) →
    runWaitLoop reload pull l = (l.length, LoopExit.exhausted) := by
  induction l with
  | nil => intro _ _; rfl
  | cons i rest ih =>
    intro h hp
    obtain ⟨st, hr, hst⟩ := h i (List.mem_cons_self i rest)
    have hpi := hp i (List.mem_cons_self i rest)
    have ih2 := ih (fun j hj => h j (List.mem_cons_of_mem _ hj))
      (fun j hj => hp j (List.mem_cons_of_mem _ hj))
    simp [runWaitLoop, hr, hpi, hst, ih2]

theorem runWaitLoop_break_at (reload : Nat → Except GoError String)
    (pull : Nat → Except GoError Unit) (l1 : List Nat) (k : Nat) (l2 : List Nat) (st : String) :
    (∀ i ∈ l1, ∃ s0, reload i = Except.ok s0 ∧ lookupDoneStatus s0 = none) →
    (∀ i ∈ l1, pull i = Except.ok ()) →
    reload k = Except.ok st →
    pull k = Except.ok () →
    (lookupDoneStatus st).isSome = true →
    runWaitLoop reload pull (l1 ++ k :: l2) = (l1.length + 1, LoopExit.broke st) := by
  induction l1 with
  | nil =>
    intro _ _ hk hpk hst
    simp [runWaitLoop, hk, hpk, hst]
  | cons i rest ih =>
    intro h hp hk hpk hst
    obtain ⟨s0, hr, hs0⟩ := h i (List.mem_cons_self i rest)
    have hpi := hp i (List.mem_cons_self i rest)
    have ih2 := ih (fun j hj => h j (List.mem_cons_of_mem _ hj))
      (fun j hj => hp j (List.mem_cons_of_mem _ hj)) hk hpk hst
    simp [runWaitLoop, hr, hpi, hs0, ih2]

theorem range_split_at (k n : Nat) (h : k < n) :
    ∃ t, List.range n = List.range k ++ k :: t := by
  induction n with
  | zero => omega
  | succ m ih =>
    rcases Nat.lt_succ_iff_lt_or_eq.mp h with h2 | h2
    · obtain ⟨t, ht⟩ := ih h2
      refine ⟨t ++ [m], ?_⟩
      rw [List.range_succ, ht]
      simp
    · subst h2
      exact ⟨[], by rw [List.range_succ]⟩

/-! C2 -/

/-- C2: with every reload and event pull succeeding, `waitUntilDone` with
bound `n ≥ 1` performs at most `n` iterations; when the first terminal status
appears at attempt `k` (0-based, `k < n`), exactly `k + 1` iterations run, so
no further reload or pull happens after that attempt; when no terminal status
appears within `n` attempts, exactly `n` iterations run and the distinct
timeout failure is returned. -/
theorem c2_waitUntilDone_bounded_attempts (n : Nat) (_hn : 1 ≤ n) (status : Nat → String) :
    ((waitUntilDone n (fun i => Except.ok (status i)) (fun _ => Except.ok ())).1 ≤ n) ∧
    (∀ k, k < n → (lookupDoneStatus (status k)).isSome = true →
      (∀ j, j < k → lookupDoneStatus (status j) = none) →
      (waitUntilDone n (fun i => Except.ok (status i)) (fun _ => Except.ok ())).1 = k + 1) ∧
    ((∀ k, k < n → lookupDoneStatus (status k) = none) →
      waitUntilDone n (fun i => Except.ok (status i)) (fun _ => Except.ok ()) =
        (n, WaitResult.timeout)) := by
  refine ⟨?_, ?_, ?_⟩
  · rw [waitUntilDone_fst]
    have := runWaitLoop_fst_le_length (fun i => Except.ok (status i))
      (fun _ => Except.ok ()) (List.range n)
    simpa using this
  · intro k hk hterm hfirst
    obtain ⟨t, ht⟩ := range_split_at k n hk
    rw [waitUntilDone_fst, ht]
    rw [runWaitLoop_break_at (fun i => Except.ok (status i)) (fun _ => Except.ok ())
      (List.range k) k t (status k)
      (fun j hj => ⟨status j, rfl, hfirst j (List.mem_range.mp hj)⟩)
      (fun j _ => rfl) rfl rfl hterm]
    simp
  · intro hall
    have hrun := runWaitLoop_no_terminal (fun i => Except.ok (status i))
      (fun _ => Except.ok ()) (List.range n)
      (fun j hj => ⟨status j, rfl, hall j (List.mem_range.mp hj)⟩)
      (fun j _ => rfl)
    simp only [waitUntilDone, hrun, List.length_range]

/-- Witness for C2: the bound-3 scenario with a never-terminal status times
out after exactly 3 iterations. -/
theorem c2_waitUntilDone_bounded_attempts_witness :
    waitUntilDone 3 (fun _ => Except.ok "CREATE_IN_PROGRESS") (fun _ => Except.ok ()) =
      (3, WaitResult.timeout) :=
  (c2_waitUntilDone_bounded_attempts 3 (by decide) (fun _ => "CREATE_IN_PROGRESS")).2.2
    (fun k _ => by decide)

/-! C4 -/

/-- C4: status classification during the poll loop goes only through the
fixed `stackDoneStatuses` table: at the first attempt whose status is present
in the table, the loop ends immediately with the outcome its entry maps to
(success for `true`, the classified status failure for `false`); when every
observed status is absent from the table the loop never ends early and
returns the timeout — never an implicit success or failure. -/
theorem c4_terminal_status_table_closed (n k : Nat) (hk : k < n) (status : Nat → String)
    (hfirst : ∀ j, j < k → lookupDoneStatus (status j) = none) :
    (∀ b, lookupDoneStatus (status k) = some b →
      waitUntilDone n (fun i => Except.ok (status i)) (fun _ => Except.ok ()) =
        (k + 1, if b then WaitResult.ok else WaitResult.statusFailure (status k))) ∧
    ((∀ j, j < n → lookupDoneStatus (status j) = none) →
      waitUntilDone n (fun i => Except.ok (status i)) (fun _ => Except.ok ()) =
        (n, WaitResult.timeout)) := by
  constructor
  · intro b hb
    obtain ⟨t, ht⟩ := range_split_at k n hk
    have hrun := runWaitLoop_break_at (fun i => Except.ok (status i)) (fun _ => Except.ok ())
      (List.range k) k t (status k)
      (fun j hj => ⟨status j, rfl, hfirst j (List.mem_range.mp hj)⟩)
      (fun j _ => rfl) rfl rfl (by simp [hb])
    rw [waitUntilDone, ht, hrun]
    cases b <;> simp [hb, List.length_range]
  · intro hall
    have hrun := runWaitLoop_no_terminal (fun i => Except.ok (status i))
      (fun _ => Except.ok ()) (List.range n)
      (fun j hj => ⟨status j, rfl, hall j (List.mem_range.mp hj)⟩)
      (fun j _ => rfl)
    simp only [waitUntilDone, hrun, List.length_range]

/-- Witness for C4: a first status of `ROLLBACK_COMPLETE` stops the loop at
once with the classified failure outcome. -/
theorem c4_terminal_status_table_closed_witness :
    waitUntilDone 2 (fun _ => Except.ok "ROLLBACK_COMPLETE") (fun _ => Except.ok ()) =
      (1, WaitResult.statusFailure "ROLLBACK_COMPLETE") :=
  (c4_terminal_status_table_closed 2 0 (by decide) (fun _ => "ROLLBACK_COMPLETE")
    (fun j hj => absurd hj (Nat.not_lt_zero j))).1 false (by decide)

/-! Helper lemmas for the pull-ordering claim. -/

theorem takeWhile_eq_self_of_all {α : Type} (q : α → Bool) (l : List α)
    (h : ∀ a ∈ l, q a = true) : l.takeWhile q = l := by
  induction l with
  | nil => rfl
  | cons a t ih =>
    have ha := h a (List.mem_cons_self a t)
    simp [List.takeWhile_cons, ha, ih (fun x hx => h x (List.mem_cons_of_mem _ hx))]

theorem takeWhile_append_of_all {α : Type} (q : α → Bool) (l1 l2 : List α)
    (h : ∀ a ∈ l1, q a = true) :
    (l1 ++ l2).takeWhile q = l1 ++ l2.takeWhile q := by
  induction l1 with
  | nil => rfl
  | cons a t ih =>
    have ha := h a (List.mem_cons_self a t)
    simp [List.takeWhile_cons, ha, ih (fun x hx => h x (List.mem_cons_of_mem _ hx))]

theorem takeWhile_append_of_bad {α : Type} (q : α → Bool) (l1 l2 : List α)
    (h : ∃ a ∈ l1, q a = false) :
    (l1 ++ l2).takeWhile q = l1.takeWhile q := by
  induction l1 with
  | nil =>
    rcases h with ⟨a, ha, -⟩
    cases ha
  | cons b t ih =>
    by_cases hb : q b = true
    · rcases h with ⟨a, ha, hqa⟩
      rcases List.mem_cons.mp ha with rfl | hat
      · rw [hb] at hqa
        cases hqa
      · simp [List.takeWhile_cons, hb, ih ⟨a, hat, hqa⟩]
    · simp [List.takeWhile_cons, hb]

theorem takeWhile_of_split {α : Type} (q : α → Bool) (pre : List α) (x : α) (suf : List α)
    (hpre : ∀ a ∈ pre, q a = true) (hx : q x = false) :
    (pre ++ x :: suf).takeWhile q = pre := by
  rw [takeWhile_append_of_all q pre (x :: suf) hpre]
  simp [List.takeWhile_cons, hx]

theorem takeWhile_sublist_self {α : Type} (q : α → Bool) (l : List α) :
    List.Sublist (l.takeWhile q) l := by
  induction l with
  | nil => exact List.Sublist.refl []
  | cons a t ih =>
    by_cases ha : q a = true
    · simpa [List.takeWhile_cons, ha] using List.Sublist.cons₂ a ih
    · simp [List.takeWhile_cons, ha]

theorem collectPage_eq (mk : Option String) (p : List StackEvent) :
    collectPage mk p =
      (p.takeWhile (fun e => !markerMatches mk e), p.any (markerMatches mk)) := by
  induction p with
  | nil => rfl
  | cons e rest ih =>
    by_cases h : markerMatches mk e = true
    · simp [collectPage, h, List.takeWhile_cons]
    · simp [collectPage, h, ih, List.takeWhile_cons]

theorem collectNewEvents_eq_takeWhile (mk : Option String) (pages : List (List StackEvent)) :
    collectNewEvents mk pages = pages.flatten.takeWhile (fun e => !markerMatches mk e) := by
  induction pages with
  | nil => rfl
  | cons p ps ih =>
    simp only [collectNewEvents, collectPage_eq, List.flatten_cons]
    by_cases h : p.any (markerMatches mk) = true
    · rw [if_pos h, takeWhile_append_of_bad]
      obtain ⟨a, ha, hqa⟩ := List.any_eq_true.mp h
      exact ⟨a, ha, by simp [hqa]⟩
    · have hall : ∀ a ∈ p, (!markerMatches mk a) = true := by
        intro a ha
        have h2 := List.any_eq_true.not.mp h
        push_neg at h2
        simpa using h2 a ha
      rw [if_neg (by simp [h]), ih, takeWhile_append_of_all _ p ps.flatten hall,
        takeWhile_eq_self_of_all _ p hall]

theorem collectNewEvents_sublist_flatten (mk : Option String)
    (pages : List (List StackEvent)) :
    List.Sublist (collectNewEvents mk pages) pages.flatten := by
  rw [collectNewEvents_eq_takeWhile]
  exact takeWhile_sublist_self _ _

/-! C1 -/

/-- C1: over two successive `latestEvents` pulls against reverse-chronological
listings (each succeeding with an always-accepting consumer), the second pull
delivers exactly the events of its listing that precede the first occurrence
of the marker event — the marker event and everything older is excluded — in
the reverse of retrieval order, which is strictly increasing chronological
order (as is the first pull's delivery); and, provided an event id determines
its timestamp across the two listings, no event id delivered by the first
pull is delivered again by the second. -/
theorem c1_pullNew_chronological_no_redelivery
    (m0 : Option String) (pages1 pages2 : List (List StackEvent))
    (pre : List StackEvent) (em : StackEvent) (suf : List StackEvent)
    (r1 : PullResult)
    (hr1 : latestEvents m0 (Except.ok pages1) (fun _ => true) = r1)
    (hsorted1 : pages1.flatten.Pairwise (fun a b => b.timestamp < a.timestamp))
    (hsorted2 : pages2.flatten.Pairwise (fun a b => b.timestamp < a.timestamp))
    (hne : collectNewEvents m0 pages1 ≠ [])
    (hjoin2 : pages2.flatten = pre ++ em :: suf)
    (hem : markerMatches r1.marker em = true)
    (hpre : ∀ e ∈ pre, markerMatches r1.marker e = false)
    (hinj : ∀ e1 ∈ r1.delivered, ∀ e2 ∈ pages2.flatten,
      e1.eventId = e2.eventId → e1.timestamp = e2.timestamp) :
    (latestEvents r1.marker (Except.ok pages2) (fun _ => true)).delivered = pre.reverse ∧
    (latestEvents r1.marker (Except.ok pages2) (fun _ => true)).delivered.Pairwise
      (fun a b => a.timestamp < b.timestamp) ∧
    (∀ e2 ∈ (latestEvents r1.marker (Except.ok pages2) (fun _ => true)).delivered,
      ∀ e1 ∈ r1.delivered, e2.eventId ≠ e1.eventId) ∧
    (latestEvents r1.marker (Except.ok pages2) (fun _ => true)).result = Except.ok () ∧
    r1.delivered.Pairwise (fun a b => a.timestamp < b.timestamp) := by
  cases hcol : collectNewEvents m0 pages1 with
  | nil => exact absurd hcol hne
  | cons h1 t1 =>
    have hrD : r1.delivered = (h1 :: t1).reverse := by
      rw [← hr1, latestEvents_ok_all, hcol]
    have hrM : r1.marker = some h1.eventId := by
      rw [← hr1, latestEvents_ok_all, hcol]
    rw [hrM] at hem hpre ⊢
    rw [hrD] at hinj ⊢
    have hcollect2 : collectNewEvents (some h1.eventId) pages2 = pre := by
      rw [collectNewEvents_eq_takeWhile, hjoin2]
      refine takeWhile_of_split _ pre em suf (fun a ha => ?_) ?_
      · simp [hpre a ha]
      · simp [hem]
    rw [latestEvents_ok_all, hcollect2]
    have hsortedNew1 : (h1 :: t1).Pairwise (fun a b => b.timestamp < a.timestamp) := by
      have hs := List.Pairwise.sublist (collectNewEvents_sublist_flatten m0 pages1) hsorted1
      rwa [hcol] at hs
    have hsplit := List.pairwise_append.mp (hjoin2 ▸ hsorted2)
    have hsortedPre : pre.Pairwise (fun a b => b.timestamp < a.timestamp) := hsplit.1
    have hPreAfterEm : ∀ a ∈ pre, em.timestamp < a.timestamp := fun a ha =>
      hsplit.2.2 a ha em (List.mem_cons_self em suf)
    refine ⟨rfl, ?_, ?_, rfl, ?_⟩
    · exact List.pairwise_reverse.mpr hsortedPre
    · intro e2 he2 e1 he1 hid
      have he2b : e2 ∈ pre := List.mem_reverse.mp he2
      have he1b : e1 ∈ h1 :: t1 := List.mem_reverse.mp he1
      have hemId : em.eventId = h1.eventId := by
        have hb : em.eventId == h1.eventId := by simpa [markerMatches] using hem
        exact eq_of_beq hb
      have hh1mem : h1 ∈ (h1 :: t1).reverse := by simp
      have hemmem : em ∈ pages2.flatten := by
        rw [hjoin2]
        exact List.mem_append_right pre (List.mem_cons_self em suf)
      have hemTs : h1.timestamp = em.timestamp := hinj h1 hh1mem em hemmem hemId.symm
      have he1le : e1.timestamp ≤ h1.timestamp := by
        rcases List.mem_cons.mp he1b with rfl | ht
        · exact le_refl _
        · exact le_of_lt ((List.pairwise_cons.mp hsortedNew1).1 e1 ht)
      have he2mem : e2 ∈ pages2.flatten := by
        rw [hjoin2]
        exact List.mem_append_left _ he2b
      have hts : e1.timestamp = e2.timestamp :=
        hinj e1 (List.mem_reverse.mpr he1b) e2 he2mem hid.symm
      have hgt : em.timestamp < e2.timestamp := hPreAfterEm e2 he2b
      omega
    · exact List.pairwise_reverse.mpr hsortedNew1

/-- Witness for C1 at a concrete pair of pulls: the first pull (no marker)
delivers three events oldest-first and advances the marker to `"3"`; the
second pull over the listing extended with one newer event delivers only that
event and repeats no previously delivered id. -/
theorem c1_pullNew_chronological_no_redelivery_witness :
    (latestEvents (some "3")
        (Except.ok [[⟨"4", 4⟩, ⟨"3", 3⟩, ⟨"2", 2⟩, ⟨"1", 1⟩]])
        (fun _ => true)).delivered = ([⟨"4", 4⟩] : List StackEvent).reverse ∧
    (∀ e2 ∈ (latestEvents (some "3")
        (Except.ok [[⟨"4", 4⟩, ⟨"3", 3⟩, ⟨"2", 2⟩, ⟨"1", 1⟩]])
        (fun _ => true)).delivered,
      ∀ e1 ∈ ([⟨"1", 1⟩, ⟨"2", 2⟩, ⟨"3", 3⟩] : List StackEvent), e2.eventId ≠ e1.eventId) := by
  have h := c1_pullNew_chronological_no_redelivery none
    [[⟨"3", 3⟩, ⟨"2", 2⟩, ⟨"1", 1⟩]]
    [[⟨"4", 4⟩, ⟨"3", 3⟩, ⟨"2", 2⟩, ⟨"1", 1⟩]]
    [⟨"4", 4⟩] ⟨"3", 3⟩ [⟨"2", 2⟩, ⟨"1", 1⟩]
    ⟨[⟨"1", 1⟩, ⟨"2", 2⟩, ⟨"3", 3⟩], some "3", Except.ok ()⟩
    rfl (by decide) (by decide) (by decide) (by decide) (by decide)
    (by decide) (by decide)
  exact ⟨h.1, h.2.2.1⟩

end Stackshot
